import Mathlib

/-!
Verification of the layout-synchronization core of `bevy_lunex_ui`
(`src/crates/bevy_lunex_ui/src/code/system.rs`), shallowly embedded in
Lean 4. Machine floats are modelled by rationals; the ECS environment
(queries, change detection, command buffers) is modelled by explicit
lists and state passing.
-/

namespace LunexUi

/-- 2D vector (`Vec2` from the environment), over rationals. -/
structure Vec2 where
  x : ℚ
  y : ℚ
deriving Repr, DecidableEq

/-- 3D vector (`Vec3` from the environment), over rationals. -/
structure Vec3 where
  x : ℚ
  y : ℚ
  z : ℚ
deriving Repr, DecidableEq

/-- Quaternion placeholder for `Transform::rotation`; the reconciler never
reads or writes it, so its components stay abstract rationals. -/
structure Quat where
  qx : ℚ
  qy : ℚ
  qz : ℚ
  qw : ℚ
deriving Repr, DecidableEq

/-- The entity transform mutated by the systems (`bevy` `Transform`). -/
structure Transform where
  translation : Vec3
  rotation : Quat
  scale : Vec3
deriving Repr, DecidableEq

/-- The `bevy` `Visibility` enum; the code writes `Hidden` and `Inherited`. -/
inductive Visibility where
  | Inherited : Visibility
  | Hidden : Visibility
  | Visible : Visibility
deriving Repr, DecidableEq

/-- The `Size` component of a `UiTree` entity. -/
structure Size where
  width : ℚ
  height : ℚ
deriving Repr, DecidableEq

/-- Window resolution, the external root-rectangle signal. -/
structure Window where
  width : ℚ
  height : ℚ
deriving Repr, DecidableEq

/-- `render_depth_rule`: `Modifier` from `bevy_lunex_core`, as matched in
`element_update_impl` (`Add(v)` accumulates with ancestor depth, `Set(v)`
pins the value). -/
inductive Modifier where
  | Add : ℚ → Modifier
  | Set : ℚ → Modifier
deriving Repr, DecidableEq

/-- Modelled from the spec: the resolved rectangle of a layout node
(§3 `resolved_rect: {x, y, width, height}`), the value returned by
`container.get_position()`. The type lives in `bevy_lunex_core`, which is
not among the sources. -/
structure Position where
  x : ℚ
  y : ℚ
  width : ℚ
  height : ℚ
deriving Repr, DecidableEq

/-- Modelled from the spec: the data a resolved node view (`branch`)
exposes to the reconciler per §4.2 — effective visibility, the resolved
rectangle, the accumulated depth and the node's `render_depth_rule`.
`Branch` itself lives in `bevy_lunex_core`, not among the sources. -/
structure Branch where
  visible : Bool
  depth : ℚ
  render_depth : Modifier
  position : Position
deriving Repr, DecidableEq

/-- Modelled from the spec: the per-level stacking constant
`bevy_lunex_core::LEVEL_RENDER_DEPTH_DIFFERENCE` (§4.2, "a fixed
per-level constant"); its concrete value is not among the sources and no
claim depends on it. -/
def LEVEL_RENDER_DEPTH_DIFFERENCE : ℚ := 1

/-- The `Widget` component: a path link into a `UiTree`. -/
structure Widget where
  path : String
deriving Repr, DecidableEq

/-- Modelled from the spec: a `UiTree` as seen by the reconciler — a
lookup structure from paths to resolved node views (§4.2 `fetch`), since
the tree internals live in `bevy_lunex_core`, not among the sources. -/
structure UiTree where
  branches : List (String × Branch)
deriving Repr, DecidableEq

/-- Modelled from the spec: `Widget::fetch` resolves `owner_path` in the
tree, failing with `NotFound` (here `none`) when the path does not
resolve (§4.2). -/
def Widget.fetch (w : Widget) (tree : UiTree) : Option Branch :=
  (tree.branches.lookup w.path)

/-- The `Element` component of `bevy_lunex_utility`: the fields read by
`element_update_impl` (`relative`, `width`, `height`, `boundary`,
`scale`, `depth`), per §3 Visual Anchor. -/
structure Element where
  relative : Vec2
  width : Option ℚ
  height : Option ℚ
  boundary : Vec2
  scale : ℚ
  depth : ℚ
deriving Repr, DecidableEq

/-- Modelled from the spec: `Position::get_pos`, evaluating the relative
anchor inside the resolved rectangle by linear interpolation across
width/height (§4.3 step 4). -/
def Position.get_pos (pos : Position) (relative : Vec2) : Vec2 :=
  ⟨pos.x + pos.width * relative.x / 100, pos.y + pos.height * relative.y / 100⟩

/-- Modelled from the spec: the `InvertY` operation flipping the Y
component exactly once (§4.3 step 4). -/
def Vec2.invert_y (v : Vec2) : Vec2 :=
  ⟨v.x, -v.y⟩

/-- The mutable per-entity state touched by the reconciler: the entity's
`Transform` and `Visibility` components. -/
structure ElemState where
  transform : Transform
  visibility : Visibility
deriving Repr, DecidableEq

/-- Shallow embedding of `element_update_impl` (system.rs lines 100-163):
given the tree, the tree entity's translation, the element's `Widget` and
`Element` components and the current component state, returns the new
state together with whether a despawn command was issued. -/
def element_update_impl (tree : UiTree) (tree_translation : Vec3)
    (widget : Widget) (element : Element) (s : ElemState) :
    ElemState × Bool :=
  match widget.fetch tree with
  | none => (s, true)
  | some branch =>
    if !branch.visible then
      ({ s with visibility := Visibility.Hidden }, false)
    else
      let s := { s with visibility := Visibility.Inherited }
      let z : ℚ :=
        match branch.render_depth with
        | Modifier.Add v =>
            v + branch.depth * LEVEL_RENDER_DEPTH_DIFFERENCE + element.depth
              + tree_translation.z
        | Modifier.Set v => v + element.depth + tree_translation.z
      let pos := branch.position
      let vec := (pos.get_pos element.relative).invert_y
      let s := { s with transform :=
        { s.transform with translation :=
          { x := vec.x, y := vec.y, z := z } } }
      let scaleXY : ℚ × ℚ :=
        match element.width with
        | some w =>
          match element.height with
          | some h =>
              ((pos.width / element.boundary.x) * (w / 100) * element.scale / 100,
               (pos.height / element.boundary.y) * (h / 100) * element.scale / 100)
          | none =>
              let scale := (pos.width / element.boundary.x) * (w / 100) * element.scale / 100
              (scale, scale)
        | none =>
          match element.height with
          | some h =>
              let scale := (pos.height / element.boundary.y) * (h / 100) * element.scale / 100
              (scale, scale)
          | none =>
              let scale :=
                min (pos.width / element.boundary.x) (pos.height / element.boundary.y)
                  * element.scale / 100
              (scale, scale)
      ({ s with transform :=
        { s.transform with scale :=
          { s.transform.scale with x := scaleXY.1, y := scaleXY.2 } } }, false)

/-- Shallow embedding of `tree_pull_window` (system.rs lines 15-22) for a
single tree entity: the window resolution is written into `Size`, and the
translation's x/y become the negated half extents. -/
def tree_pull_window (size : Size) (transform : Transform) (window : Window) :
    Size × Transform :=
  let size := { size with width := window.width, height := window.height }
  let transform := { transform with translation :=
    { transform.translation with
        x := -size.width / 2, y := -size.height / 2 } }
  (size, transform)

/-- One tree entity of the `tree_pull_window` query. -/
structure TreeWin where
  size : Size
  transform : Transform
  window : Window
deriving Repr, DecidableEq

/-- Shallow embedding of the `tree_pull_window` loop over every tree
entity in the query. -/
def tree_pull_window_all (q : List TreeWin) : List (Size × Transform) :=
  q.map fun t => tree_pull_window t.size t.transform t.window

/-- One tree entity of the `element_update` tree queries: its entity id,
the `UiTree`, its `Transform`, and the frame's change-detection flag
(`Changed<UiTree<T>>` or `Changed<Transform>`). -/
structure TreeEnt where
  id : ℕ
  tree : UiTree
  transform : Transform
  changed : Bool
deriving Repr, DecidableEq

/-- One element entity of the `element_update` element queries: its
entity id, `Widget` and `Element` components, the mutable state, and the
frame's change-detection flag (`Changed<Widget>` or `Changed<Element>`). -/
structure ElemEnt where
  id : ℕ
  widget : Widget
  element : Element
  state : ElemState
  changed : Bool
deriving Repr, DecidableEq

/-- The world visible to one run of `element_update`: the tree entities
and the element entities. -/
structure Frame where
  trees : List TreeEnt
  elements : List ElemEnt
deriving Repr, DecidableEq

/-- The observable output of one run of `element_update`: the updated
element entities, the queued despawn commands (entity ids, in order), and
the reconciliation events — one `(tree id, element id)` pair per call of
`element_update_impl`, in call order. -/
structure UpdateResult where
  elements : List ElemEnt
  despawns : List ℕ
  events : List (ℕ × ℕ)
deriving Repr, DecidableEq

/-- One inner loop of `element_update`: reconcile, against the tree
`(tid, tree, tt)`, every element of `es` matched by the query filter
`pred` (`fun _ => true` for the `elements` query, `(·.changed)` for the
`changed_elements` query), in order. Despawns are queued commands, so the
element list keeps despawned entities, as the real queries do within the
frame. -/
def runPass (tid : ℕ) (tree : UiTree) (tt : Vec3) (pred : ElemEnt → Bool) :
    List ElemEnt → List ElemEnt × List ℕ × List (ℕ × ℕ)
  | [] => ([], [], [])
  | e :: rest =>
    let r := runPass tid tree tt pred rest
    if pred e then
      let u := element_update_impl tree tt e.widget e.element e.state
      ({ e with state := u.1 } :: r.1,
       (if u.2 then [e.id] else []) ++ r.2.1,
       (tid, e.id) :: r.2.2)
    else
      (e :: r.1, r.2.1, r.2.2)

/-- Pass (a) of `element_update` (lines 60-75): every changed tree
reconciles every element. -/
def passA : List TreeEnt → List ElemEnt → List ElemEnt × List ℕ × List (ℕ × ℕ)
  | [], es => (es, [], [])
  | ct :: rest, es =>
    let r := runPass ct.id ct.tree ct.transform.translation (fun _ => true) es
    let r2 := passA rest r.1
    (r2.1, r.2.1 ++ r2.2.1, r.2.2 ++ r2.2.2)

/-- Pass (b) of `element_update` (lines 78-97): every tree whose entity
is not in the buffer of changed trees reconciles the changed elements. -/
def passB (buffer : List ℕ) : List TreeEnt → List ElemEnt →
    List ElemEnt × List ℕ × List (ℕ × ℕ)
  | [], es => (es, [], [])
  | t :: rest, es =>
    if buffer.contains t.id then
      passB buffer rest es
    else
      let r := runPass t.id t.tree t.transform.translation (·.changed) es
      let r2 := passB buffer rest r.1
      (r2.1, r.2.1 ++ r2.2.1, r.2.2 ++ r2.2.2)

/-- Shallow embedding of `element_update` (system.rs lines 46-98): the
buffer collects the changed trees' entities during pass (a); pass (b)
skips exactly the trees in the buffer. -/
def element_update (f : Frame) : UpdateResult :=
  let changed := f.trees.filter (·.changed)
  let buffer := changed.map (·.id)
  let r := passA changed f.elements
  let r2 := passB buffer f.trees r.1
  ⟨r2.1, r.2.1 ++ r2.2.1, r.2.2 ++ r2.2.2⟩

/-! Concrete sample data used by witness theorems. -/

/-- A sample entity state with nontrivial transform fields. -/
def sampleState : ElemState :=
  ⟨⟨⟨1, 2, 3⟩, ⟨0, 0, 0, 1⟩, ⟨1, 1, 9⟩⟩, Visibility.Visible⟩

/-- A sample element with both width and height percentages present. -/
def sampleElement : Element := ⟨⟨50, 50⟩, some 40, some 60, ⟨100, 200⟩, 100, 5⟩

/-- A sample element in fit-smaller-axis mode (no width, no height). -/
def fitElement : Element := ⟨⟨50, 50⟩, none, none, ⟨100, 200⟩, 100, 0⟩

/-- A sample visible branch. -/
def sampleBranch : Branch := ⟨true, 2, Modifier.Add 3, ⟨10, 20, 40, 80⟩⟩

/-- A sample tree holding one widget at path "w". -/
def sampleTree : UiTree := ⟨[("w", sampleBranch)]⟩

/-- A tree whose only branch is invisible. -/
def hiddenTree : UiTree := ⟨[("w", ⟨false, 2, Modifier.Add 3, ⟨10, 20, 40, 80⟩⟩)]⟩

/-- The tree of spec Scenario C: resolved rectangle of width 50 and
height 50. -/
def fitTree : UiTree := ⟨[("w", ⟨true, 0, Modifier.Add 0, ⟨0, 0, 50, 50⟩⟩)]⟩

/-- A widget pointing at path "w". -/
def wWidget : Widget := ⟨"w"⟩

/-- A neutral entity state (identity transform). -/
def baseState : ElemState :=
  ⟨⟨⟨0, 0, 0⟩, ⟨0, 0, 0, 1⟩, ⟨1, 1, 1⟩⟩, Visibility.Inherited⟩

/-- A frame with two changed trees (entities 0 and 1) and one changed
element (entity 10): both iterations of pass (a) reconcile the element. -/
def cexFrame : Frame :=
  ⟨[⟨0, sampleTree, ⟨⟨0, 0, 0⟩, ⟨0, 0, 0, 1⟩, ⟨1, 1, 1⟩⟩, true⟩,
    ⟨1, sampleTree, ⟨⟨0, 0, 0⟩, ⟨0, 0, 0, 1⟩, ⟨1, 1, 1⟩⟩, true⟩],
   [⟨10, wWidget, sampleElement, baseState, true⟩]⟩

/-- An unchanged tree entity. -/
def calmTree : TreeEnt :=
  ⟨0, sampleTree, ⟨⟨0, 0, 0⟩, ⟨0, 0, 0, 1⟩, ⟨1, 1, 1⟩⟩, false⟩

/-- A changed element entity (id 10). -/
def chElem : ElemEnt := ⟨10, wWidget, sampleElement, baseState, true⟩

/-- An unchanged element entity (id 11). -/
def quietElem : ElemEnt := ⟨11, wWidget, sampleElement, baseState, false⟩

/-- A frame of spec Scenario D: one unchanged tree, one changed element
and one unchanged element. -/
def calmFrame : Frame := ⟨[calmTree], [chElem, quietElem]⟩

/-- C3: when the anchor's owner path fails to resolve (fetch returns an
error), the reconciler issues a despawn for the rendered entity and
performs no transform write and no visibility write: the component state
is returned exactly as it came in, with the despawn flag set. -/
theorem element_update_impl_notfound_despawns (tree : UiTree) (tt : Vec3)
    (widget : Widget) (element : Element) (s : ElemState)
    (hfetch : widget.fetch tree = none) :
    element_update_impl tree tt widget element s = (s, true) := by
  unfold element_update_impl
  rw [hfetch]

/-- Witness for C3 at a concrete dangling path. -/
theorem element_update_impl_notfound_despawns_witness :
    element_update_impl sampleTree ⟨0, 0, 1⟩ ⟨"nope"⟩ sampleElement sampleState
      = (sampleState, true) :=
  element_update_impl_notfound_despawns sampleTree ⟨0, 0, 1⟩ ⟨"nope"⟩
    sampleElement sampleState rfl

/-- C7: when the owner node resolves but is not effectively visible, the
reconciler writes only the visibility field (set to Hidden); the entire
transform is kept, and no despawn is issued. -/
theorem element_update_impl_hidden_preserves_transform (tree : UiTree) (tt : Vec3)
    (widget : Widget) (element : Element) (s : ElemState) (b : Branch)
    (hfetch : widget.fetch tree = some b) (hvis : b.visible = false) :
    element_update_impl tree tt widget element s
      = ({ s with visibility := Visibility.Hidden }, false) := by
  unfold element_update_impl
  rw [hfetch]
  simp [hvis]

/-- Witness for C7 at a concrete invisible branch. -/
theorem element_update_impl_hidden_preserves_transform_witness :
    element_update_impl hiddenTree ⟨0, 0, 1⟩ wWidget sampleElement sampleState
      = ({ sampleState with visibility := Visibility.Hidden }, false) :=
  element_update_impl_hidden_preserves_transform hiddenTree ⟨0, 0, 1⟩ wWidget
    sampleElement sampleState ⟨false, 2, Modifier.Add 3, ⟨10, 20, 40, 80⟩⟩ rfl rfl

/-- C5: for a visible anchor the written depth z is, in Add mode, the
rule value plus the node's accumulated depth times the per-level constant
plus the element's depth offset plus the tree translation's z; in Set
mode, the rule value plus the depth offset plus the tree translation's z,
with no ancestor-accumulated contribution. -/
theorem element_update_impl_depth_modes (tree : UiTree) (tt : Vec3)
    (widget : Widget) (element : Element) (s : ElemState) (b : Branch)
    (hfetch : widget.fetch tree = some b) (hvis : b.visible = true) :
    (∀ v, b.render_depth = Modifier.Add v →
      (element_update_impl tree tt widget element s).1.transform.translation.z
        = v + b.depth * LEVEL_RENDER_DEPTH_DIFFERENCE + element.depth + tt.z) ∧
    (∀ v, b.render_depth = Modifier.Set v →
      (element_update_impl tree tt widget element s).1.transform.translation.z
        = v + element.depth + tt.z) := by
  unfold element_update_impl
  rw [hfetch]
  simp only [hvis]
  constructor
  · intro v hv
    rw [hv]
    rcases element.width with _ | w <;> rcases element.height with _ | h <;> simp
  · intro v hv
    rw [hv]
    rcases element.width with _ | w <;> rcases element.height with _ | h <;> simp

/-- Witness for C5 at a concrete Add-mode branch: depth 2 at per-level
constant 1, rule value 3, offset 5, tree z 1. -/
theorem element_update_impl_depth_modes_witness :
    (element_update_impl sampleTree ⟨0, 0, 1⟩ wWidget sampleElement
        sampleState).1.transform.translation.z
      = 3 + 2 * LEVEL_RENDER_DEPTH_DIFFERENCE + 5 + 1 :=
  (element_update_impl_depth_modes sampleTree ⟨0, 0, 1⟩ wWidget sampleElement
    sampleState sampleBranch rfl rfl).1 3 rfl

/-- C4: for a visible anchor the written scale follows the four size
modes — both percentages present: per-axis independent computation; only
width: both axes equal the x computation; only height: both axes equal
the y computation; neither: both axes equal the min of the two ratios —
and all four modes multiply by extra scale percent over 100. -/
theorem element_update_impl_scale_modes (tree : UiTree) (tt : Vec3)
    (widget : Widget) (element : Element) (s : ElemState) (b : Branch)
    (hfetch : widget.fetch tree = some b) (hvis : b.visible = true) :
    (∀ w h, element.width = some w → element.height = some h →
      (element_update_impl tree tt widget element s).1.transform.scale.x
          = (b.position.width / element.boundary.x) * (w / 100) * (element.scale / 100) ∧
        (element_update_impl tree tt widget element s).1.transform.scale.y
          = (b.position.height / element.boundary.y) * (h / 100) * (element.scale / 100)) ∧
    (∀ w, element.width = some w → element.height = none →
      (element_update_impl tree tt widget element s).1.transform.scale.x
          = (b.position.width / element.boundary.x) * (w / 100) * (element.scale / 100) ∧
        (element_update_impl tree tt widget element s).1.transform.scale.y
          = (element_update_impl tree tt widget element s).1.transform.scale.x) ∧
    (∀ h, element.width = none → element.height = some h →
      (element_update_impl tree tt widget element s).1.transform.scale.y
          = (b.position.height / element.boundary.y) * (h / 100) * (element.scale / 100) ∧
        (element_update_impl tree tt widget element s).1.transform.scale.x
          = (element_update_impl tree tt widget element s).1.transform.scale.y) ∧
    (element.width = none → element.height = none →
      (element_update_impl tree tt widget element s).1.transform.scale.x
          = min (b.position.width / element.boundary.x)
              (b.position.height / element.boundary.y) * (element.scale / 100) ∧
        (element_update_impl tree tt widget element s).1.transform.scale.y
          = (element_update_impl tree tt widget element s).1.transform.scale.x) := by
  unfold element_update_impl
  rw [hfetch]
  simp only [hvis]
  refine ⟨?_, ?_, ?_, ?_⟩
  · intro w h hw hh
    rw [hw, hh]
    constructor <;> (simp; try ring)
  · intro w hw hh
    rw [hw, hh]
    constructor <;> (simp; try ring)
  · intro h hw hh
    rw [hw, hh]
    constructor <;> (simp; try ring)
  · intro hw hh
    rw [hw, hh]
    constructor <;> (simp; try ring)

/-- Witness for C4 in the both-percentages mode at concrete data. -/
theorem element_update_impl_scale_modes_witness :
    (element_update_impl sampleTree ⟨0, 0, 1⟩ wWidget sampleElement
        sampleState).1.transform.scale.x
      = (sampleBranch.position.width / sampleElement.boundary.x) * (40 / 100)
          * (sampleElement.scale / 100) ∧
    (element_update_impl sampleTree ⟨0, 0, 1⟩ wWidget sampleElement
        sampleState).1.transform.scale.y
      = (sampleBranch.position.height / sampleElement.boundary.y) * (60 / 100)
          * (sampleElement.scale / 100) :=
  (element_update_impl_scale_modes sampleTree ⟨0, 0, 1⟩ wWidget sampleElement
    sampleState sampleBranch rfl rfl).1 40 60 rfl rfl

/-- C6: for a visible anchor the written x,y translation is the relative
anchor linearly interpolated inside the owner's resolved rectangle with
the Y component inverted exactly once, and the reconciler never touches
the entity's rotation in any branch. -/
theorem element_update_impl_position_inverts_y_once (tree : UiTree) (tt : Vec3)
    (widget : Widget) (element : Element) (s : ElemState) (b : Branch)
    (hfetch : widget.fetch tree = some b) (hvis : b.visible = true) :
    ((element_update_impl tree tt widget element s).1.transform.translation.x
        = b.position.x + b.position.width * element.relative.x / 100 ∧
      (element_update_impl tree tt widget element s).1.transform.translation.y
        = -(b.position.y + b.position.height * element.relative.y / 100)) ∧
    (∀ s' : ElemState,
      (element_update_impl tree tt widget element s').1.transform.rotation
        = s'.transform.rotation) := by
  constructor
  · unfold element_update_impl
    rw [hfetch]
    simp only [hvis]
    rcases element.width with _ | w <;> rcases element.height with _ | h <;>
      simp [Position.get_pos, Vec2.invert_y]
  · intro s'
    unfold element_update_impl
    rcases hf : widget.fetch tree with _ | b'
    · simp
    · rcases hv : b'.visible <;>
        rcases element.width with _ | w <;> rcases element.height with _ | h <;>
          simp [hv]

/-- Witness for C6 at concrete data: relative (50,50) inside rectangle
at (10,20) sized 40 by 80. -/
theorem element_update_impl_position_inverts_y_once_witness :
    ((element_update_impl sampleTree ⟨0, 0, 1⟩ wWidget sampleElement
          sampleState).1.transform.translation.x
        = sampleBranch.position.x + sampleBranch.position.width * 50 / 100 ∧
      (element_update_impl sampleTree ⟨0, 0, 1⟩ wWidget sampleElement
          sampleState).1.transform.translation.y
        = -(sampleBranch.position.y + sampleBranch.position.height * 50 / 100)) ∧
    (element_update_impl sampleTree ⟨0, 0, 1⟩ wWidget sampleElement
        sampleState).1.transform.rotation = sampleState.transform.rotation :=
  have h := element_update_impl_position_inverts_y_once sampleTree ⟨0, 0, 1⟩
    wWidget sampleElement sampleState sampleBranch rfl rfl
  ⟨h.1, h.2 sampleState⟩

/-- C8: in fit-smaller-axis mode (no width and no height percentage) the
written scale is uniform (scale.x = scale.y); in the Scenario C instance
(boundary (100,200), resolved rectangle 50 by 50, extra scale 100) both
components equal 1/4. -/
theorem element_update_impl_fit_smaller_uniform_scale (tree : UiTree) (tt : Vec3)
    (widget : Widget) (element : Element) (s : ElemState) (b : Branch)
    (hfetch : widget.fetch tree = some b) (hvis : b.visible = true)
    (hw : element.width = none) (hh : element.height = none) :
    ((element_update_impl tree tt widget element s).1.transform.scale.x
      = (element_update_impl tree tt widget element s).1.transform.scale.y) ∧
    (element_update_impl fitTree ⟨0, 0, 0⟩ wWidget fitElement
        baseState).1.transform.scale.x = 1/4 ∧
    (element_update_impl fitTree ⟨0, 0, 0⟩ wWidget fitElement
        baseState).1.transform.scale.y = 1/4 := by
  refine ⟨?_, ?_, ?_⟩
  case refine_2 =>
    norm_num [element_update_impl, Widget.fetch, fitTree, fitElement, baseState,
      wWidget, List.lookup, min_def]
  case refine_3 =>
    norm_num [element_update_impl, Widget.fetch, fitTree, fitElement, baseState,
      wWidget, List.lookup, min_def]
  unfold element_update_impl
  rw [hfetch]
  simp [hvis, hw, hh]

/-- Witness for C8 at the Scenario C data itself. -/
theorem element_update_impl_fit_smaller_uniform_scale_witness :
    (element_update_impl fitTree ⟨0, 0, 0⟩ wWidget fitElement
        baseState).1.transform.scale.x
      = (element_update_impl fitTree ⟨0, 0, 0⟩ wWidget fitElement
          baseState).1.transform.scale.y :=
  (element_update_impl_fit_smaller_uniform_scale fitTree ⟨0, 0, 0⟩ wWidget
    fitElement baseState ⟨true, 0, Modifier.Add 0, ⟨0, 0, 50, 50⟩⟩
    rfl rfl rfl rfl).1

/-- C9: reconciling an anchor twice in succession with no intervening
change to the tree, the tree translation, the widget or the element
yields exactly the result of reconciling it once. -/
theorem element_update_impl_idempotent (tree : UiTree) (tt : Vec3)
    (widget : Widget) (element : Element) (s : ElemState) :
    element_update_impl tree tt widget element
        (element_update_impl tree tt widget element s).1
      = element_update_impl tree tt widget element s := by
  unfold element_update_impl
  rcases hf : widget.fetch tree with _ | b
  · simp
  · rcases hv : b.visible <;>
      rcases element.width with _ | w <;> rcases element.height with _ | h <;>
        simp [hv]

/-- C10: every frame, for every tree entity in the query,
tree_pull_window writes the window's width and height into the tree's
Size and sets the translation's x to minus half the width and y to minus
half the height, leaving the translation's z (and the rest of the
transform) unchanged. -/
theorem tree_pull_window_sets_size_and_centers (q : List TreeWin) (i : ℕ)
    (t : TreeWin) (hq : q[i]? = some t) :
    (tree_pull_window_all q)[i]?
      = some (⟨t.window.width, t.window.height⟩,
          { t.transform with translation :=
            ⟨-t.window.width / 2, -t.window.height / 2,
              t.transform.translation.z⟩ }) := by
  unfold tree_pull_window_all
  rw [List.getElem?_map, hq]
  rfl

/-- Witness for C10 on a one-tree query with a 1920 by 1080 window. -/
theorem tree_pull_window_sets_size_and_centers_witness :
    (tree_pull_window_all
        [⟨⟨3, 4⟩, ⟨⟨1, 2, 7⟩, ⟨0, 0, 0, 1⟩, ⟨1, 1, 1⟩⟩, ⟨1920, 1080⟩⟩])[0]?
      = some (⟨1920, 1080⟩,
          ⟨⟨-1920 / 2, -1080 / 2, 7⟩, ⟨0, 0, 0, 1⟩, ⟨1, 1, 1⟩⟩) :=
  tree_pull_window_sets_size_and_centers
    [⟨⟨3, 4⟩, ⟨⟨1, 2, 7⟩, ⟨0, 0, 0, 1⟩, ⟨1, 1, 1⟩⟩, ⟨1920, 1080⟩⟩] 0
    ⟨⟨3, 4⟩, ⟨⟨1, 2, 7⟩, ⟨0, 0, 0, 1⟩, ⟨1, 1, 1⟩⟩, ⟨1920, 1080⟩⟩ rfl

/-- The reconciliation events of one inner pass are exactly the elements
matched by the query filter, paired with the pass's tree entity. -/
theorem runPass_events (tid : ℕ) (tr : UiTree) (tt : Vec3) (pred : ElemEnt → Bool)
    (es : List ElemEnt) :
    (runPass tid tr tt pred es).2.2 = (es.filter pred).map (fun e => (tid, e.id)) := by
  induction es with
  | nil => rfl
  | cons e rest ih =>
    by_cases hp : pred e
    · simp [runPass, hp, ih]
    · simp only [Bool.not_eq_true] at hp
      simp [runPass, hp, ih]

/-- An element not matched by the query filter is carried through an
inner pass untouched, at its position. -/
theorem runPass_getElem_of_not_pred (tid : ℕ) (tr : UiTree) (tt : Vec3)
    (pred : ElemEnt → Bool) (es : List ElemEnt) (i : ℕ) (e : ElemEnt)
    (hq : es[i]? = some e) (hp : pred e = false) :
    (runPass tid tr tt pred es).1[i]? = some e := by
  induction es generalizing i with
  | nil => simp at hq
  | cons a rest ih =>
    rcases i with _ | i
    · simp only [List.getElem?_cons_zero, Option.some.injEq] at hq
      subst hq
      simp [runPass, hp]
    · simp only [List.getElem?_cons_succ] at hq
      by_cases hpa : pred a
      · simp [runPass, hpa, ih i hq]
      · simp only [Bool.not_eq_true] at hpa
        simp [runPass, hpa, ih i hq]

/-- An inner pass only rewrites component state: every output element has
the id and change flag of some input element. -/
theorem runPass_mem_profile (tid : ℕ) (tr : UiTree) (tt : Vec3)
    (pred : ElemEnt → Bool) (es : List ElemEnt) (e' : ElemEnt)
    (hm : e' ∈ (runPass tid tr tt pred es).1) :
    ∃ e ∈ es, e'.id = e.id ∧ e'.changed = e.changed := by
  induction es with
  | nil => simp [runPass] at hm
  | cons a rest ih =>
    by_cases hpa : pred a
    · simp only [runPass, hpa, if_pos, List.mem_cons] at hm
      rcases hm with hm | hm
      · exact ⟨a, List.mem_cons_self a rest, by simp [hm]⟩
      · obtain ⟨e, he, h1, h2⟩ := ih hm
        exact ⟨e, List.mem_cons_of_mem a he, h1, h2⟩
    · simp only [Bool.not_eq_true] at hpa
      simp only [runPass, hpa, Bool.false_eq_true, if_false, List.mem_cons] at hm
      rcases hm with hm | hm
      · exact ⟨a, List.mem_cons_self a rest, by simp [hm]⟩
      · obtain ⟨e, he, h1, h2⟩ := ih hm
        exact ⟨e, List.mem_cons_of_mem a he, h1, h2⟩

/-- Every reconciliation event of pass (b) targets a changed element: any
property of the ids of changed input elements holds of every event. -/
theorem passB_events_prop (P : ℕ → Prop) (buffer : List ℕ) (ts : List TreeEnt)
    (es : List ElemEnt) (hinv : ∀ e ∈ es, e.changed = true → P e.id) :
    ∀ ev ∈ (passB buffer ts es).2.2, P ev.2 := by
  induction ts generalizing es with
  | nil => intro ev hev; simp [passB] at hev
  | cons t rest ih =>
    intro ev hev
    by_cases hc : buffer.contains t.id
    · rw [passB, if_pos hc] at hev
      exact ih es hinv ev hev
    · rw [passB, if_neg hc] at hev
      simp only [List.mem_append] at hev
      rcases hev with hev | hev
      · rw [runPass_events] at hev
        simp only [List.mem_map, List.mem_filter] at hev
        obtain ⟨e, ⟨he, hch⟩, rfl⟩ := hev
        exact hinv e he (by simpa using hch)
      · refine ih _ ?_ ev hev
        intro e' he' hch'
        obtain ⟨e, he, h1, h2⟩ := runPass_mem_profile _ _ _ _ _ _ he'
        rw [h1]
        exact hinv e he (h2 ▸ hch')

/-- Unchanged elements pass through pass (b) untouched, at their
positions. -/
theorem passB_getElem_of_not_changed (buffer : List ℕ) (ts : List TreeEnt)
    (es : List ElemEnt) (i : ℕ) (e : ElemEnt) (hq : es[i]? = some e)
    (hch : e.changed = false) :
    (passB buffer ts es).1[i]? = some e := by
  induction ts generalizing es with
  | nil => simpa [passB] using hq
  | cons t rest ih =>
    by_cases hc : buffer.contains t.id
    · rw [passB, if_pos hc]
      exact ih es hq
    · rw [passB, if_neg hc]
      exact ih _ (runPass_getElem_of_not_pred _ _ _ _ _ _ _ hq hch)

/-- When element entity ids are pairwise distinct, at most one element of
the list carries a given id. -/
theorem countP_id_le_one (es : List ElemEnt) (eid : ℕ)
    (hnd : (es.map (·.id)).Nodup) :
    es.countP (fun e => e.id == eid) ≤ 1 := by
  have h := List.nodup_iff_count_le_one.mp hnd eid
  rw [List.count_eq_countP, List.countP_map] at h
  exact le_trans (le_of_eq (by rfl)) h

/-- Counterexample to C1: in the concrete frame with two changed trees
and a single anchored entity (id 10), the entity is reconciled twice in
the same frame — pass (a) runs once per changed tree over every element,
so the claimed at-most-once bound fails. -/
theorem element_update_double_reconciliation_counterexample :
    (element_update cexFrame).events = [(0, 10), (1, 10)] ∧
    ¬ ((element_update cexFrame).events.countP (fun ev => ev.2 == 10) ≤ 1) := by
  have h : (element_update cexFrame).events = [(0, 10), (1, 10)] := by
    simp [element_update, cexFrame, passA, passB, runPass_events, runPass]
  exact ⟨h, by rw [h]; decide⟩

/-- C1 as amended: the pass-exclusion implemented by the buffer is at
tree granularity — a tree processed in pass (a) is skipped by pass (b) —
so in a frame whose world holds a single tree, any anchored entity with a
unique id is reconciled at most once, whether or not both the tree and
the anchor changed. With several trees an anchor can be reconciled once
per changed tree, and once more per unchanged tree when its own data
changed. -/
theorem element_update_single_tree_at_most_once (t : TreeEnt) (es : List ElemEnt)
    (eid : ℕ) (hnd : (es.map (·.id)).Nodup) :
    (element_update ⟨[t], es⟩).events.countP (fun ev => ev.2 == eid) ≤ 1 := by
  by_cases ht : t.changed
  · have hflt : [t].filter (·.changed) = [t] := by simp [ht]
    have hev : (element_update ⟨[t], es⟩).events
        = es.map (fun e => (t.id, e.id)) := by
      simp [element_update, hflt, passA, passB, runPass_events]
    rw [hev, List.countP_map]
    exact countP_id_le_one es eid hnd
  · have hflt : [t].filter (·.changed) = [] := by
      simp only [Bool.not_eq_true] at ht
      simp [ht]
    have hev : (element_update ⟨[t], es⟩).events
        = (es.filter (·.changed)).map (fun e => (t.id, e.id)) := by
      simp [element_update, hflt, passA, passB, runPass_events]
    rw [hev, List.countP_map]
    calc (es.filter (·.changed)).countP ((fun ev => ev.2 == eid) ∘ fun e => (t.id, e.id))
        ≤ es.countP (fun e => e.id == eid) := by
          rw [List.countP_filter]
          exact List.countP_mono_left (fun e _ h => by
            simp only [Function.comp, Bool.and_eq_true] at h
            exact h.1)
      _ ≤ 1 := countP_id_le_one es eid hnd

/-- Witness for the amended C1 on a concrete single-tree frame. -/
theorem element_update_single_tree_at_most_once_witness :
    (element_update ⟨[⟨0, sampleTree, ⟨⟨0, 0, 0⟩, ⟨0, 0, 0, 1⟩, ⟨1, 1, 1⟩⟩, true⟩],
        [chElem]⟩).events.countP (fun ev => ev.2 == 10) ≤ 1 :=
  element_update_single_tree_at_most_once
    ⟨0, sampleTree, ⟨⟨0, 0, 0⟩, ⟨0, 0, 0, 1⟩, ⟨1, 1, 1⟩⟩, true⟩ [chElem] 10
    (by simp [chElem])

/-- C2: in a frame where no tree changed and every changed element has
the designated id, every reconciliation event targets that id, and every
unchanged element keeps its transform and visibility exactly (it is
carried through the frame untouched, at its position). -/
theorem element_update_unchanged_trees_only_changed_anchor (f : Frame) (cid : ℕ)
    (ht : ∀ t ∈ f.trees, t.changed = false)
    (he : ∀ e ∈ f.elements, e.changed = true → e.id = cid) :
    (∀ ev ∈ (element_update f).events, ev.2 = cid) ∧
    (∀ (i : ℕ) (e : ElemEnt), f.elements[i]? = some e → e.changed = false →
      (element_update f).elements[i]? = some e) := by
  have hflt : f.trees.filter (·.changed) = [] := by
    rw [List.filter_eq_nil_iff]
    intro t htm
    simp [ht t htm]
  constructor
  · intro ev hev
    have hmem : ev ∈ (passB [] f.trees f.elements).2.2 := by
      simpa [element_update, hflt, passA] using hev
    exact passB_events_prop (fun i => i = cid) [] f.trees f.elements he ev hmem
  · intro i e hq hch
    have h := passB_getElem_of_not_changed [] f.trees f.elements i e hq hch
    simpa [element_update, hflt, passA] using h

/-- Witness for C2 on the Scenario D frame: the only event targets the
changed element (id 10) and the unchanged element (id 11) passes through
untouched. -/
theorem element_update_unchanged_trees_only_changed_anchor_witness :
    (0, 10).2 = 10 ∧ (element_update calmFrame).elements[1]? = some quietElem :=
  have h := element_update_unchanged_trees_only_changed_anchor calmFrame 10
    (by simp [calmFrame, calmTree])
    (by
      intro e hem hch
      simp only [calmFrame, List.mem_cons, List.mem_singleton] at hem
      rcases hem with rfl | rfl | h
      · rfl
      · simp [quietElem] at hch
      · simp at h)
  ⟨h.1 (0, 10)
    (by simp [element_update, calmFrame, calmTree, passA, passB, runPass_events,
      runPass, chElem, quietElem]),
   h.2 1 quietElem rfl rfl⟩

end LunexUi
